import Mathlib

/-!
Verification of the picoclaw live-chat bridge (pkg/channels): a shallow
embedding of the YouTube ingestion channel's filter/select/dispatch pipeline
and of the AITuber avatar channel's emotion parsing and outbound queue,
with theorems settling the specification's claims about them.

Go strings are modelled as Lean `String` (sequences of runes). Byte-level
index arithmetic in the source only ever lands on ASCII delimiters, so the
rune-level model agrees with it everywhere the claims reach. Go `float64`
config ratios are modelled as `Rat`; the claims under study only depend on
comparisons with 0, where the two agree. Go `int` is modelled as `Int`.
-/

namespace Picoclaw

/-- Model of Go `strings.Contains s sub` scanning a rune list: true iff `sub`
occurs contiguously in `s` (true for empty `sub`). -/
def containsSubList (sub : List Char) : List Char → Bool
  | [] => sub.isEmpty
  | c :: rest => sub.isPrefixOf (c :: rest) || containsSubList sub rest

/-- Go `strings.Contains`. -/
def goContains (s sub : String) : Bool :=
  containsSubList sub.data s.data

/-- Go `strings.ToLower` (ASCII case mapping; the recognized NG words and
emotion tags compared against it are ASCII). -/
def goToLower (s : String) : String :=
  ⟨s.data.map Char.toLower⟩

/-- textMessageDetails of a chat message (pointer modelled as `Option`). -/
structure TextMessageDetails where
  messageText : String
deriving Repr, DecidableEq

/-- superChatDetails of a chat message (pointer modelled as `Option`). -/
structure SuperChatDetails where
  amountMicros : String
  currency : String
  amountDisplayString : String
  userComment : String
deriving Repr, DecidableEq

/-- snippet part of `youtubeLiveChatMessage`. -/
structure Snippet where
  type : String
  displayMessage : String
  textMessageDetails : Option TextMessageDetails
  superChatDetails : Option SuperChatDetails
deriving Repr, DecidableEq

/-- authorDetails part of `youtubeLiveChatMessage`. -/
structure AuthorDetails where
  channelID : String
  displayName : String
  isChatOwner : Bool
  isChatModerator : Bool
deriving Repr, DecidableEq

/-- the channel's canonical chat message record (fields the pipeline reads). -/
structure YoutubeLiveChatMessage where
  id : String
  snippet : Snippet
  authorDetails : AuthorDetails
deriving Repr, DecidableEq

/-- config.YouTubeConfig, restricted to the fields the modelled functions
read. `maxRepeatRat` embeds the Go field MaxRepeatRatio (float64, as `Rat`). -/
structure YouTubeConfig where
  chatSource : String
  apiKey : String
  videoID : String
  channelID : String
  liveChatID : String
  pollIntervalSeconds : Int
  messageFormat : String
  forwardChannel : String
  forwardChatID : String
  ngWords : List String
  minMessageLength : Int
  maxRepeatRat : Rat
  blockURLs : Bool
  maxCommentsPerPoll : Int
  selectionStrategy : String
  batchComments : Bool
  accumulateComments : Bool
  minAccumulateSeconds : Int
  maxAccumulateSeconds : Int
  superchatPollSeconds : Int
deriving Repr, DecidableEq

/-- the message text the filter inspects: DisplayMessage, overridden by
TextMessageDetails.MessageText when that field is present. -/
def messageTextOf (m : YoutubeLiveChatMessage) : String :=
  match m.snippet.textMessageDetails with
  | some td => td.messageText
  | none => m.snippet.displayMessage

/-- number of occurrences of rune `r` in `cs`. -/
def runeFreq (cs : List Char) (r : Char) : Nat :=
  (cs.filter (fun c => c = r)).length

/-- count of the single most-repeated rune (the max over the freq map in
`shouldFilter`). -/
def maxRuneCount (cs : List Char) : Nat :=
  (cs.map (runeFreq cs)).foldl Nat.max 0

/-- `(c *YouTubeChannel) shouldFilter(text string) bool`: the per-message
drop rules, checked in source order. -/
def shouldFilter (cfg : YouTubeConfig) (text : String) : Bool :=
  let lower := goToLower text
  if cfg.ngWords.any (fun ng => goContains lower (goToLower ng)) then true
  else if 0 < cfg.minMessageLength ∧ (text.length : Int) < cfg.minMessageLength then true
  else if cfg.blockURLs = true ∧
      (goContains text "http://" = true ∨ goContains text "https://" = true) then true
  else if 0 < cfg.maxRepeatRat ∧ 0 < text.length ∧
      cfg.maxRepeatRat < (maxRuneCount text.data : Rat) / (text.length : Rat) then true
  else false

/-- the accumulation loop of `preFilter` over the input slice. -/
def preFilterLoop (cfg : YouTubeConfig) : List YoutubeLiveChatMessage → List YoutubeLiveChatMessage
  | [] => []
  | item :: rest =>
    if messageTextOf item = "" then preFilterLoop cfg rest
    else if shouldFilter cfg (messageTextOf item) then preFilterLoop cfg rest
    else item :: preFilterLoop cfg rest

/-- `(c *YouTubeChannel) preFilter(items)`: returns the input unchanged when
every filter config field is zero/empty/false, else runs the drop loop. -/
def preFilter (cfg : YouTubeConfig) (items : List YoutubeLiveChatMessage) :
    List YoutubeLiveChatMessage :=
  if cfg.ngWords = [] ∧ cfg.minMessageLength = 0 ∧ cfg.maxRepeatRat = 0 ∧ cfg.blockURLs = false
  then items
  else preFilterLoop cfg items

/-- a message is prioritized when it has super-chat details or its author is
the chat owner or a moderator (the `priority` partition test). -/
def prioritized (m : YoutubeLiveChatMessage) : Bool :=
  m.snippet.superChatDetails.isSome || m.authorDetails.isChatOwner ||
    m.authorDetails.isChatModerator

/-- one Fisher-Yates swap: exchange positions `i` and `j` (identity when out
of range, which never happens in the loop). -/
def swapL {α : Type} (l : List α) (i j : Nat) : List α :=
  match l[i]?, l[j]? with
  | some a, some b => (l.set i b).set j a
  | _, _ => l

/-- the Fisher-Yates loop `for i := len-1; i > 0; i--`, with the random draw
`rand.IntN(i+1)` modelled by the oracle `rnd` reduced into range. -/
def fyAux {α : Type} (rnd : Nat → Nat) : Nat → List α → List α
  | 0, l => l
  | i + 1, l => fyAux rnd i (swapL l (i + 1) (rnd (i + 1) % (i + 2)))

/-- the full shuffle of the `random` strategy. -/
def fisherYates {α : Type} (rnd : Nat → Nat) (l : List α) : List α :=
  fyAux rnd (l.length - 1) l

/-- `(c *YouTubeChannel) selectComments(msgs)`: cap the batch to
MaxCommentsPerPoll with the configured strategy; a cap that does not bind
(`max <= 0 || len(msgs) <= max`) returns the input unchanged. -/
def selectComments (cfg : YouTubeConfig) (rnd : Nat → Nat)
    (msgs : List YoutubeLiveChatMessage) : List YoutubeLiveChatMessage :=
  let mx := cfg.maxCommentsPerPoll
  if mx ≤ 0 ∨ (msgs.length : Int) ≤ mx then msgs
  else if cfg.selectionStrategy = "priority" then
    let pr := msgs.filter (fun m => prioritized m)
    let nor := msgs.filter (fun m => ! prioritized m)
    let result := pr ++ nor
    if mx < (result.length : Int) then result.take mx.toNat else result
  else if cfg.selectionStrategy = "random" then
    (fisherYates rnd msgs).take mx.toNat
  else
    msgs.drop (msgs.length - mx.toNat)

/-- a YouTube Data API error value (code and message). -/
structure YoutubeAPIError where
  code : Int
  message : String
deriving Repr, DecidableEq

/-- `(c *YouTubeChannel) handleAPIError(apiErr)`: logs by category and
returns true exactly when the source's switch reaches a stream-ended case. -/
def handleAPIError (e : YoutubeAPIError) : Bool :=
  if e.code = 401 then false
  else if e.code = 403 then
    if goContains e.message "quotaExceeded" || goContains e.message "dailyLimitExceeded" then
      false
    else if goContains e.message "forbidden" || goContains e.message "liveChatDisabled" then
      false
    else if goContains e.message "no longer live" || goContains e.message "liveChatEnded" then
      true
    else false
  else if e.code = 404 then true
  else false

/-- bus.OutboundMessage (fields the modelled functions read). -/
structure OutboundMessage where
  channel : String
  chatID : String
  content : String
deriving Repr, DecidableEq

/-- `(c *YouTubeChannel) Send(ctx, msg)`: the pair of (the outbound message
published on the bus, if any; `none` means drop-and-log) and the returned
error (always `none`). The body contains no call to the live-chat service. -/
def youtubeSend (cfg : YouTubeConfig) (msg : OutboundMessage) :
    Option OutboundMessage × Option String :=
  if cfg.forwardChannel = "" ∨ cfg.forwardChatID = "" then (none, none)
  else (some ⟨cfg.forwardChannel, cfg.forwardChatID, msg.content⟩, none)

/-- the dispatch outcome of one pipeline step: one batched inbound message
via `batchAndHandle`, or per-message dispatch via `processMessage`. -/
inductive Dispatch
  | individual (msgs : List YoutubeLiveChatMessage)
  | batch (msgs : List YoutubeLiveChatMessage)
deriving Repr, DecidableEq

/-- the dispatch decision at the end of `pollOnce` (standard mode). -/
def pollDispatch (cfg : YouTubeConfig) (selected : List YoutubeLiveChatMessage) : Dispatch :=
  if cfg.batchComments = true ∧ 1 < selected.length then Dispatch.batch selected
  else Dispatch.individual selected

/-- `(c *YouTubeChannel) flushCommentBuffer()`: drain the buffer, select, and
dispatch; `none` models the early returns (empty buffer / empty selection). -/
def flushCommentBuffer (cfg : YouTubeConfig) (rnd : Nat → Nat)
    (buffer : List YoutubeLiveChatMessage) : Option Dispatch :=
  if buffer.length = 0 then none
  else
    let selected := selectComments cfg rnd buffer
    if selected.length = 0 then none
    else if selected.length = 1 then some (Dispatch.individual selected)
    else some (Dispatch.batch selected)

/-- the constructor's `cfg.ChatSource == ""` default. -/
def applyChatSourceDefault (cfg : YouTubeConfig) : YouTubeConfig :=
  if cfg.chatSource = "" then { cfg with chatSource := "innertube" } else cfg

/-- the constructor's poll-interval normalization: below the minimum 5, the
default 20 replaces the configured value. -/
def applyPollIntervalDefault (cfg : YouTubeConfig) : YouTubeConfig :=
  if cfg.pollIntervalSeconds < 5 then { cfg with pollIntervalSeconds := 20 } else cfg

/-- the constructor's message-format default. -/
def applyMessageFormatDefault (cfg : YouTubeConfig) : YouTubeConfig :=
  if cfg.messageFormat = "" then
    { cfg with messageFormat := "[YT] \x7bauthor\x7d: \x7bmessage\x7d" }
  else cfg

/-- the constructor's accumulate-window defaults (only with accumulation on). -/
def applyAccumulateDefaults (cfg : YouTubeConfig) : YouTubeConfig :=
  if cfg.accumulateComments = true then
    { cfg with
      minAccumulateSeconds :=
        if cfg.minAccumulateSeconds ≤ 0 then 3 else cfg.minAccumulateSeconds,
      maxAccumulateSeconds :=
        if cfg.maxAccumulateSeconds ≤ 0 then 30 else cfg.maxAccumulateSeconds }
  else cfg

/-- `NewYouTubeChannel`: config validation and normalization, in source
order (the channel's other construction effects carry no claim-relevant
state). -/
def newYouTubeChannel (cfg0 : YouTubeConfig) : Except String YouTubeConfig :=
  let cfg1 := applyChatSourceDefault cfg0
  if cfg1.chatSource = "data_api" ∧ cfg1.apiKey = "" then
    Except.error "youtube: api_key is required for chat_source=data_api"
  else if cfg1.videoID = "" ∧ cfg1.channelID = "" then
    Except.error "youtube: either video_id or channel_id is required"
  else
    Except.ok (applyAccumulateDefaults (applyMessageFormatDefault
      (applyPollIntervalDefault cfg1)))

/-- config.AITuberConfig (fields the modelled functions read). -/
structure AITuberConfig where
  wsHost : String
  wsPort : Int
  wsPath : String
  defaultEmotion : String
  maxQueueSize : Int
deriving Repr, DecidableEq

/-- the wire payload sent to avatar clients. -/
structure AituberMessage where
  text : String
  role : String
  emotion : String
  type : String
deriving Repr, DecidableEq

/-- the recognized emotion tags (the keys of `validEmotions`). -/
def validEmotionsList : List String :=
  ["neutral", "happy", "sad", "angry", "relaxed", "surprised"]

/-- Go `unicode.IsSpace` (the White_Space property). -/
def goIsSpace (c : Char) : Bool :=
  (9 ≤ c.toNat ∧ c.toNat ≤ 13) ∨ c.toNat = 32 ∨ c.toNat = 0x85 ∨ c.toNat = 0xA0 ∨
    c.toNat = 0x1680 ∨ (0x2000 ≤ c.toNat ∧ c.toNat ≤ 0x200A) ∨ c.toNat = 0x2028 ∨
    c.toNat = 0x2029 ∨ c.toNat = 0x202F ∨ c.toNat = 0x205F ∨ c.toNat = 0x3000

/-- Go `strings.TrimSpace` on a rune list: drop whitespace from both ends. -/
def goTrimChars (cs : List Char) : List Char :=
  ((cs.dropWhile goIsSpace).reverse.dropWhile goIsSpace).reverse

/-- `parseEmotion(content, defaultEmotion)` from aituber.go: recognize a
leading `[tag]`, strip it and trim the remainder, else keep the content and
fall back to the (defaulted) emotion. The Go guard `len(content) > 2` counts
bytes; runes are counted here, which agrees at every reachable decision since
a recognized tag needs at least 5 characters before the guard matters. -/
def parseEmotion (content defaultEmotion : String) : String × String :=
  let d := if defaultEmotion = "" then "neutral" else defaultEmotion
  if 2 < content.length ∧ content.data.head? = some '[' then
    let rest := content.data.drop 1
    if ']' ∈ rest then
      let tag : String := ⟨(rest.takeWhile (fun c => c != ']')).map Char.toLower⟩
      if tag ∈ validEmotionsList then
        (⟨goTrimChars ((rest.dropWhile (fun c => c != ']')).drop 1)⟩, tag)
      else (content, d)
    else (content, d)
  else (content, d)

/-- the send queue capacity chosen by `NewAITuberChannel` (default 10). -/
def aituberQueueSize (cfg : AITuberConfig) : Nat :=
  if cfg.maxQueueSize ≤ 0 then 10 else cfg.maxQueueSize.toNat

/-- the wire payload `Send` builds from an outbound content string. -/
def mkAituberPayload (cfg : AITuberConfig) (content : String) : AituberMessage :=
  let pe := parseEmotion content cfg.defaultEmotion
  ⟨pe.1, "assistant", pe.2, "message"⟩

/-- the select in `Send`: enqueue when below capacity, else receive the
oldest entry first and then enqueue (drop-oldest). -/
def enqueueDropOldest {α : Type} (cap : Nat) (q : List α) (m : α) : List α :=
  if q.length < cap then q ++ [m] else q.tail ++ [m]

/-- `(c *AITuberChannel) Send`: effect on the send queue (front = oldest). -/
def aituberSend (cfg : AITuberConfig) (q : List AituberMessage) (content : String) :
    List AituberMessage :=
  enqueueDropOldest (aituberQueueSize cfg) q (mkAituberPayload cfg content)

/-- a sequence of `Send` calls with no intervening worker dequeue, from an
empty queue. -/
def aituberSendAll (cfg : AITuberConfig) (contents : List String) : List AituberMessage :=
  contents.foldl (aituberSend cfg) []

/-- the specification's description of a tagged content: `content` is
`[pre]rest` where `pre`, lowercased, is a recognized emotion tag and `pre`
stops at the first closing bracket. This definition follows the spec's
words, for comparison with the source-translated `parseEmotion`. -/
def specTaggedContent (content : String) (tag : String) (pre rest : List Char) : Prop :=
  tag ∈ validEmotionsList ∧ content.data = '[' :: (pre ++ ']' :: rest) ∧
    pre.map Char.toLower = tag.data ∧ ']' ∉ pre

/-- a configuration with every field zero/empty/false. -/
def cfgBase : YouTubeConfig := {
  chatSource := "", apiKey := "", videoID := "", channelID := "", liveChatID := "",
  pollIntervalSeconds := 0, messageFormat := "", forwardChannel := "", forwardChatID := "",
  ngWords := [], minMessageLength := 0, maxRepeatRat := 0, blockURLs := false,
  maxCommentsPerPoll := 0, selectionStrategy := "", batchComments := false,
  accumulateComments := false, minAccumulateSeconds := 0, maxAccumulateSeconds := 0,
  superchatPollSeconds := 0 }

/-- base config with only the URL filter active. -/
def cfgUrls : YouTubeConfig := { cfgBase with blockURLs := true }

/-- priority strategy with no cap. -/
def cfgPriority0 : YouTubeConfig := { cfgBase with selectionStrategy := "priority" }

/-- priority strategy capped at 2. -/
def cfgPriority2 : YouTubeConfig :=
  { cfgBase with selectionStrategy := "priority", maxCommentsPerPoll := 2 }

/-- latest strategy capped at 2. -/
def cfgLatest2 : YouTubeConfig :=
  { cfgBase with selectionStrategy := "latest", maxCommentsPerPoll := 2 }

/-- a forward channel configured without a forward chat id. -/
def cfgForwardPartial : YouTubeConfig := { cfgBase with forwardChannel := "telegram" }

/-- forward channel and chat id both configured. -/
def cfgForwardFull : YouTubeConfig :=
  { cfgBase with forwardChannel := "telegram", forwardChatID := "42" }

/-- a valid constructor input with a too-small poll interval. -/
def cfgNew0 : YouTubeConfig :=
  { cfgBase with chatSource := "innertube", videoID := "vid", messageFormat := "fmt" }

/-- the configuration `newYouTubeChannel cfgNew0` produces. -/
def cfgNew0Res : YouTubeConfig := { cfgNew0 with pollIntervalSeconds := 20 }

/-- a plain text chat message fixture. -/
def msgOfText (author text : String) : YoutubeLiveChatMessage := {
  id := "id-" ++ author,
  snippet := { type := "textMessageEvent", displayMessage := text,
               textMessageDetails := some { messageText := text }, superChatDetails := none },
  authorDetails := { channelID := "UC" ++ author, displayName := author,
                     isChatOwner := false, isChatModerator := false } }

/-- a super-chat message fixture. -/
def msgSuperOf (author text : String) : YoutubeLiveChatMessage :=
  let m := msgOfText author text
  let sc : SuperChatDetails :=
    { amountMicros := "500000000", currency := "JPY",
      amountDisplayString := "¥500", userComment := text }
  let sn : Snippet := { m.snippet with type := "superChatEvent", superChatDetails := some sc }
  { m with snippet := sn }

/-- an empty-text message. -/
def msgEmpty : YoutubeLiveChatMessage := msgOfText "user0" ""

/-- plain message fixtures. -/
def msgA : YoutubeLiveChatMessage := msgOfText "user1" "normal message"

/-- a second plain message fixture. -/
def msgB : YoutubeLiveChatMessage := msgOfText "user2" "another normal"

/-- super-chat fixtures. -/
def msgSuper1 : YoutubeLiveChatMessage := msgSuperOf "user3" "super chat"

/-- a second super-chat fixture. -/
def msgSuper2 : YoutubeLiveChatMessage := msgSuperOf "user4" "more super"

/-- a constant randomness oracle. -/
def rnd0 : Nat → Nat := fun _ => 0

theorem swapL_length {α : Type} (l : List α) (i j : Nat) :
    (swapL l i j).length = l.length := by
  unfold swapL
  cases h1 : l[i]? <;> cases h2 : l[j]? <;> simp

theorem fyAux_length {α : Type} (rnd : Nat → Nat) :
    ∀ (n : Nat) (l : List α), (fyAux rnd n l).length = l.length := by
  intro n
  induction n with
  | zero => intro l; rfl
  | succ i ih =>
    intro l
    rw [fyAux, ih, swapL_length]

theorem fisherYates_length {α : Type} (rnd : Nat → Nat) (l : List α) :
    (fisherYates rnd l).length = l.length :=
  fyAux_length rnd (l.length - 1) l

theorem length_filter_add_length_filter_not {α : Type} (p : α → Bool) (l : List α) :
    (l.filter p).length + (l.filter (fun a => ! p a)).length = l.length := by
  induction l with
  | nil => rfl
  | cons a t ih =>
    cases h : p a <;> simp [List.filter_cons, h] <;> omega

theorem preFilterLoop_text_ne (cfg : YouTubeConfig) :
    ∀ (xs : List YoutubeLiveChatMessage), ∀ m ∈ preFilterLoop cfg xs, messageTextOf m ≠ "" := by
  intro xs
  induction xs with
  | nil => intro m hm; simp [preFilterLoop] at hm
  | cons a t ih =>
    intro m hm
    rw [preFilterLoop] at hm
    split_ifs at hm with h1 h2
    · exact ih m hm
    · exact ih m hm
    · rcases List.mem_cons.mp hm with h | h
      · rw [h]; exact h1
      · exact ih m h

/-- C1: for every configuration in which ng_words is empty, min_message_length
is 0, max_repeat_ratio is 0 and block_urls is false, preFilter returns the
input list itself, with no message dropped. -/
theorem preFilter_passthrough_identity (cfg : YouTubeConfig)
    (xs : List YoutubeLiveChatMessage) (h1 : cfg.ngWords = [])
    (h2 : cfg.minMessageLength = 0) (h3 : cfg.maxRepeatRat = 0)
    (h4 : cfg.blockURLs = false) : preFilter cfg xs = xs := by
  unfold preFilter
  rw [if_pos ⟨h1, h2, h3, h4⟩]

theorem preFilter_passthrough_identity_witness :
    preFilter cfgBase [msgEmpty, msgA] = [msgEmpty, msgA] :=
  preFilter_passthrough_identity cfgBase [msgEmpty, msgA] rfl rfl rfl rfl

/-- C2 counterexample: with every filter config field zero/empty/false,
preFilter keeps an empty-text message, so empty-text messages are not
dropped unconditionally. -/
theorem preFilter_empty_text_counterexample :
    messageTextOf msgEmpty = "" ∧ msgEmpty ∈ preFilter cfgBase [msgEmpty] := by
  constructor
  · rfl
  · have h : preFilter cfgBase [msgEmpty] = [msgEmpty] := by decide
    rw [h]
    exact List.mem_singleton.mpr rfl

/-- C2 amended: whenever at least one filter config field is active, no
message with empty text survives preFilter. -/
theorem preFilter_drops_empty_when_active (cfg : YouTubeConfig)
    (xs : List YoutubeLiveChatMessage)
    (hactive : ¬(cfg.ngWords = [] ∧ cfg.minMessageLength = 0 ∧
      cfg.maxRepeatRat = 0 ∧ cfg.blockURLs = false)) :
    ∀ m ∈ preFilter cfg xs, messageTextOf m ≠ "" := by
  unfold preFilter
  rw [if_neg hactive]
  exact preFilterLoop_text_ne cfg xs

theorem preFilter_drops_empty_when_active_witness :
    msgEmpty ∉ preFilter cfgUrls [msgEmpty] :=
  fun hmem =>
    preFilter_drops_empty_when_active cfgUrls [msgEmpty] (by decide) msgEmpty hmem rfl

/-- C7 counterexample: a 403 whose message contains both a quota marker and
"no longer live" is not treated as a stream end (the quota branch is checked
first), although the claim's characterization would return true. -/
theorem handleAPIError_counterexample :
    handleAPIError ⟨403, "quotaExceeded: the stream is no longer live"⟩ = false ∧
    goContains "quotaExceeded: the stream is no longer live" "no longer live" = true := by
  constructor <;> decide

/-- C7 amended: handleAPIError returns true exactly for a 404, or a 403 whose
message contains a stream-end marker and none of the quota or forbidden
markers that are checked first. -/
theorem handleAPIError_spec (e : YoutubeAPIError) :
    handleAPIError e = true ↔
      (e.code = 404 ∨
        (e.code = 403 ∧
          (goContains e.message "no longer live" = true ∨
            goContains e.message "liveChatEnded" = true) ∧
          goContains e.message "quotaExceeded" = false ∧
          goContains e.message "dailyLimitExceeded" = false ∧
          goContains e.message "forbidden" = false ∧
          goContains e.message "liveChatDisabled" = false)) := by
  unfold handleAPIError
  split_ifs with h1 h2 h3 h4 h5 h6
  · rw [false_iff]
    rintro (h | ⟨h, -⟩) <;> omega
  · rw [Bool.or_eq_true] at h3
    rw [false_iff]
    rintro (h | ⟨-, -, hq, hd, -, -⟩)
    · omega
    · rcases h3 with h | h
      · exact absurd h (by simp [hq])
      · exact absurd h (by simp [hd])
  · rw [Bool.or_eq_true] at h4
    rw [false_iff]
    rintro (h | ⟨-, -, -, -, hf, hl⟩)
    · omega
    · rcases h4 with h | h
      · exact absurd h (by simp [hf])
      · exact absurd h (by simp [hl])
  · rw [Bool.or_eq_true] at h5
    simp only [Bool.or_eq_true, not_or, Bool.not_eq_true] at h3 h4
    constructor
    · intro _
      exact Or.inr ⟨h2, h5, h3.1, h3.2, h4.1, h4.2⟩
    · intro _; rfl
  · simp only [Bool.or_eq_true, not_or, Bool.not_eq_true] at h5
    rw [false_iff]
    rintro (h | ⟨-, hor, -, -, -, -⟩)
    · omega
    · rcases hor with h | h
      · exact absurd h (by simp [h5.1])
      · exact absurd h (by simp [h5.2])
  · constructor
    · intro _; exact Or.inl h6
    · intro _; rfl
  · rw [false_iff]
    rintro (h | ⟨h, -⟩)
    · exact h6 h
    · exact h2 h

/-- C9 counterexample: with a forward channel configured but no forward chat
id, Send still drops the message (publishes nothing). -/
theorem youtubeSend_counterexample :
    (youtubeSend cfgForwardPartial ⟨"youtube", "chat", "hello"⟩).1 = none ∧
    cfgForwardPartial.forwardChannel ≠ "" := by
  constructor
  · rfl
  · decide

/-- C9 amended: Send always returns nil; it publishes the content to the
configured forward channel and chat id, and drops (publishing nothing)
exactly when the forward channel or the forward chat id is unconfigured. -/
theorem youtubeSend_spec (cfg : YouTubeConfig) (msg : OutboundMessage) :
    (youtubeSend cfg msg).2 = none ∧
    ((youtubeSend cfg msg).1 = none ↔
      (cfg.forwardChannel = "" ∨ cfg.forwardChatID = "")) ∧
    (¬(cfg.forwardChannel = "" ∨ cfg.forwardChatID = "") →
      (youtubeSend cfg msg).1 =
        some ⟨cfg.forwardChannel, cfg.forwardChatID, msg.content⟩) := by
  unfold youtubeSend
  by_cases h : cfg.forwardChannel = "" ∨ cfg.forwardChatID = ""
  · rw [if_pos h]; simp [h]
  · rw [if_neg h]; simp [h]

theorem youtubeSend_spec_witness :
    (youtubeSend cfgForwardFull ⟨"youtube", "chat", "hello"⟩).1 =
      some ⟨cfgForwardFull.forwardChannel, cfgForwardFull.forwardChatID, "hello"⟩ :=
  (youtubeSend_spec cfgForwardFull ⟨"youtube", "chat", "hello"⟩).2.2 (by decide)

/-- C8 counterexample: with batch_comments false and two selected messages,
flushCommentBuffer dispatches one batched message, while the normal dispatch
step would dispatch each message individually. -/
theorem flushCommentBuffer_counterexample :
    flushCommentBuffer cfgBase rnd0 [msgA, msgB] = some (Dispatch.batch [msgA, msgB]) ∧
    cfgBase.batchComments = false ∧
    pollDispatch cfgBase [msgA, msgB] = Dispatch.individual [msgA, msgB] := by
  refine ⟨by decide, rfl, by decide⟩

/-- C8 amended: when flushCommentBuffer dispatches, it dispatches the
selected messages individually exactly when one message was selected, and as
a single batch whenever more than one was selected, regardless of
batch_comments. -/
theorem flushCommentBuffer_dispatch_spec (cfg : YouTubeConfig) (rnd : Nat → Nat)
    (buffer : List YoutubeLiveChatMessage) (d : Dispatch)
    (h : flushCommentBuffer cfg rnd buffer = some d) :
    (d = Dispatch.individual (selectComments cfg rnd buffer) ∧
      (selectComments cfg rnd buffer).length = 1) ∨
    (d = Dispatch.batch (selectComments cfg rnd buffer) ∧
      1 < (selectComments cfg rnd buffer).length) := by
  simp only [flushCommentBuffer] at h
  split_ifs at h with h1 h2 h3
  · exact Or.inl ⟨(Option.some.inj h).symm, h3⟩
  · refine Or.inr ⟨(Option.some.inj h).symm, ?_⟩
    omega

theorem flushCommentBuffer_dispatch_spec_witness :
    (Dispatch.batch [msgA, msgB] =
        Dispatch.individual (selectComments cfgBase rnd0 [msgA, msgB]) ∧
      (selectComments cfgBase rnd0 [msgA, msgB]).length = 1) ∨
    (Dispatch.batch [msgA, msgB] =
        Dispatch.batch (selectComments cfgBase rnd0 [msgA, msgB]) ∧
      1 < (selectComments cfgBase rnd0 [msgA, msgB]).length) :=
  flushCommentBuffer_dispatch_spec cfgBase rnd0 [msgA, msgB]
    (Dispatch.batch [msgA, msgB]) (by decide)

/-- C10: every configuration the constructor accepts gets its poll interval
normalized: a configured value below 5 (0, unset or negative included)
becomes the default 20, a value of 5 or more is kept, and the effective
interval is always at least 5 seconds. -/
theorem newYouTubeChannel_pollInterval (cfg cfg2 : YouTubeConfig)
    (h : newYouTubeChannel cfg = Except.ok cfg2) :
    (cfg.pollIntervalSeconds < 5 → cfg2.pollIntervalSeconds = 20) ∧
    (5 ≤ cfg.pollIntervalSeconds → cfg2.pollIntervalSeconds = cfg.pollIntervalSeconds) ∧
    5 ≤ cfg2.pollIntervalSeconds := by
  have hcs : (applyChatSourceDefault cfg).pollIntervalSeconds = cfg.pollIntervalSeconds := by
    unfold applyChatSourceDefault; split_ifs <;> rfl
  have hmf : ∀ c : YouTubeConfig,
      (applyMessageFormatDefault c).pollIntervalSeconds = c.pollIntervalSeconds := by
    intro c; unfold applyMessageFormatDefault; split_ifs <;> rfl
  have hac : ∀ c : YouTubeConfig,
      (applyAccumulateDefaults c).pollIntervalSeconds = c.pollIntervalSeconds := by
    intro c; unfold applyAccumulateDefaults; split_ifs <;> rfl
  simp only [newYouTubeChannel] at h
  split_ifs at h
  have h2 := Except.ok.inj h
  subst h2
  rw [hac, hmf]
  unfold applyPollIntervalDefault
  split_ifs with hiv
  · rw [hcs] at hiv
    refine ⟨fun _ => rfl, fun hge => absurd hiv (by omega), by norm_num⟩
  · rw [hcs] at hiv ⊢
    exact ⟨fun hlt => absurd hlt (by omega), fun _ => rfl, by omega⟩

theorem newYouTubeChannel_pollInterval_witness :
    cfgNew0Res.pollIntervalSeconds = 20 ∧ 5 ≤ cfgNew0Res.pollIntervalSeconds := by
  have h := newYouTubeChannel_pollInterval cfgNew0 cfgNew0Res rfl
  exact ⟨h.1 (by decide), h.2.2⟩

/-- C4: selectComments returns the input unchanged when the cap is not
positive, and otherwise returns exactly min(|input|, cap) messages, for
every strategy string (latest is the default branch, priority and random are
the named ones). -/
theorem selectComments_cap_length (cfg : YouTubeConfig) (rnd : Nat → Nat)
    (xs : List YoutubeLiveChatMessage) :
    (cfg.maxCommentsPerPoll ≤ 0 → selectComments cfg rnd xs = xs) ∧
    (0 < cfg.maxCommentsPerPoll →
      ((selectComments cfg rnd xs).length : Int) =
        min (xs.length : Int) cfg.maxCommentsPerPoll) := by
  constructor
  · intro h
    unfold selectComments
    rw [if_pos (Or.inl h)]
  · intro hpos
    by_cases hle : (xs.length : Int) ≤ cfg.maxCommentsPerPoll
    · unfold selectComments
      rw [if_pos (Or.inr hle)]
      omega
    · have hlt : cfg.maxCommentsPerPoll < (xs.length : Int) := by omega
      have htn : (cfg.maxCommentsPerPoll.toNat : Int) = cfg.maxCommentsPerPoll :=
        Int.toNat_of_nonneg (by omega)
      have hmin : min (xs.length : Int) cfg.maxCommentsPerPoll = cfg.maxCommentsPerPoll :=
        min_eq_right (le_of_lt hlt)
      simp only [selectComments]
      rw [if_neg (by omega)]
      split_ifs with hstrat hgt hrand
      · rw [List.length_take]
        have hres : ((xs.filter (fun m => prioritized m)) ++
            xs.filter (fun m => ! prioritized m)).length = xs.length := by
          rw [List.length_append]
          exact length_filter_add_length_filter_not _ xs
        rw [hres] at hgt ⊢
        rw [hmin]
        omega
      · have hres : ((xs.filter (fun m => prioritized m)) ++
            xs.filter (fun m => ! prioritized m)).length = xs.length := by
          rw [List.length_append]
          exact length_filter_add_length_filter_not _ xs
        rw [hres] at hgt
        omega
      · rw [List.length_take, fisherYates_length, hmin]
        omega
      · rw [List.length_drop, hmin]
        omega

theorem selectComments_cap_length_witness :
    selectComments cfgBase rnd0 [msgA, msgB, msgSuper1] = [msgA, msgB, msgSuper1] ∧
    ((selectComments cfgLatest2 rnd0 [msgA, msgB, msgSuper1]).length : Int) =
      min (([msgA, msgB, msgSuper1].length : Nat) : Int) cfgLatest2.maxCommentsPerPoll :=
  ⟨(selectComments_cap_length cfgBase rnd0 [msgA, msgB, msgSuper1]).1 (by decide),
   (selectComments_cap_length cfgLatest2 rnd0 [msgA, msgB, msgSuper1]).2 (by decide)⟩

theorem enqueueDropOldest_eq {α : Type} (cap : Nat) (q : List α) (m : α)
    (hcap : 1 ≤ cap) (hq : q.length ≤ cap) :
    enqueueDropOldest cap q m = (q ++ [m]).drop (q.length + 1 - cap) := by
  unfold enqueueDropOldest
  by_cases h : q.length < cap
  · rw [if_pos h]
    have h0 : q.length + 1 - cap = 0 := by omega
    rw [h0, List.drop_zero]
  · rw [if_neg h]
    have h1 : q.length + 1 - cap = 1 := by omega
    rw [h1, List.drop_append_of_le_length (by omega), List.drop_one]

theorem foldl_enqueueDropOldest {α : Type} (cap : Nat) (hcap : 1 ≤ cap) :
    ∀ (ms q : List α), q.length ≤ cap →
      ms.foldl (enqueueDropOldest cap) q = (q ++ ms).drop (q.length + ms.length - cap) := by
  intro ms
  induction ms with
  | nil =>
    intro q hq
    simp only [List.foldl_nil, List.length_nil, Nat.add_zero, List.append_nil]
    rw [Nat.sub_eq_zero_of_le hq, List.drop_zero]
  | cons c ms ih =>
    intro q hq
    rw [List.foldl_cons, enqueueDropOldest_eq cap q c hcap hq]
    have hlen : ((q ++ [c]).drop (q.length + 1 - cap)).length ≤ cap := by
      simp only [List.length_drop, List.length_append, List.length_cons, List.length_nil]
      omega
    rw [ih _ hlen]
    rw [← List.drop_append_of_le_length
      (show q.length + 1 - cap ≤ (q ++ [c]).length by
        simp only [List.length_append, List.length_cons, List.length_nil]
        omega)]
    rw [List.drop_drop]
    have hx : (q ++ [c]) ++ ms = q ++ c :: ms := by
      rw [List.append_assoc, List.singleton_append]
    rw [hx]
    congr 1
    simp only [List.length_drop, List.length_append, List.length_cons, List.length_nil]
    omega

theorem aituberQueueSize_pos (cfg : AITuberConfig) : 1 ≤ aituberQueueSize cfg := by
  unfold aituberQueueSize
  split_ifs with h
  · omega
  · omega

/-- C6: a run of n Send calls with no worker dequeue leaves the queue holding
exactly the most recent min(n, capacity) payloads in enqueue order (so its
size never exceeds the capacity, and the newest message always wins). -/
theorem aituberSendAll_queue_spec (cfg : AITuberConfig) (contents : List String) :
    aituberSendAll cfg contents =
      (contents.map (mkAituberPayload cfg)).drop
        (contents.length - aituberQueueSize cfg) ∧
    (aituberSendAll cfg contents).length = min contents.length (aituberQueueSize cfg) := by
  have h1 : aituberSendAll cfg contents =
      (contents.map (mkAituberPayload cfg)).foldl
        (enqueueDropOldest (aituberQueueSize cfg)) [] :=
    (List.foldl_map (mkAituberPayload cfg) (enqueueDropOldest (aituberQueueSize cfg))
      contents []).symm
  have h2 : aituberSendAll cfg contents =
      (contents.map (mkAituberPayload cfg)).drop
        (contents.length - aituberQueueSize cfg) := by
    rw [h1, foldl_enqueueDropOldest (aituberQueueSize cfg) (aituberQueueSize_pos cfg)
      ((contents.map (mkAituberPayload cfg))) [] (by simp)]
    rw [List.nil_append, List.length_nil, List.length_map]
    congr 1
    omega
  refine ⟨h2, ?_⟩
  rw [h2, List.length_drop, List.length_map]
  rcases Nat.le_total contents.length (aituberQueueSize cfg) with h | h
  · rw [Nat.min_eq_left h]; omega
  · rw [Nat.min_eq_right h]; omega

theorem pairwise_priority_append (l1 l2 : List YoutubeLiveChatMessage)
    (h1 : ∀ m ∈ l1, prioritized m = true) (h2 : ∀ m ∈ l2, prioritized m = false) :
    List.Pairwise (fun a b => prioritized b = true → prioritized a = true) (l1 ++ l2) := by
  rw [List.pairwise_append]
  refine ⟨?_, ?_, ?_⟩
  · apply List.pairwise_of_forall_mem_list
    intro a ha b hb hbp
    exact h1 a ha
  · apply List.pairwise_of_forall_mem_list
    intro a ha b hb hbp
    exact absurd hbp (by simp [h2 b hb])
  · intro a ha b hb hbp
    exact h1 a ha

/-- C3 counterexample: with the priority strategy and a non-binding cap
(here 0), selectComments returns the input unchanged, so a non-prioritized
message can sit in the output before a prioritized one. -/
theorem selectComments_priority_counterexample :
    selectComments cfgPriority0 rnd0 [msgA, msgSuper1] = [msgA, msgSuper1] ∧
    prioritized msgA = false ∧ prioritized msgSuper1 = true := by
  refine ⟨by decide, rfl, by decide⟩

/-- C3 amended: whenever the cap binds (0 < max < |input|), the priority
strategy never places a non-prioritized message at an earlier output
position than a prioritized one. -/
theorem selectComments_priority_order (cfg : YouTubeConfig) (rnd : Nat → Nat)
    (xs : List YoutubeLiveChatMessage) (hstrat : cfg.selectionStrategy = "priority")
    (hpos : 0 < cfg.maxCommentsPerPoll)
    (hlt : cfg.maxCommentsPerPoll < (xs.length : Int)) :
    ∀ i j : Fin (selectComments cfg rnd xs).length, (i : Nat) < (j : Nat) →
      prioritized ((selectComments cfg rnd xs).get j) = true →
      prioritized ((selectComments cfg rnd xs).get i) = true := by
  have hpair : List.Pairwise (fun a b => prioritized b = true → prioritized a = true)
      (selectComments cfg rnd xs) := by
    simp only [selectComments]
    rw [if_neg (by omega), if_pos hstrat]
    have hbase := pairwise_priority_append
      (xs.filter (fun m => prioritized m)) (xs.filter (fun m => ! prioritized m))
      (fun m hm => List.of_mem_filter hm)
      (fun m hm => by
        have := List.of_mem_filter hm
        simp only [Bool.not_eq_true'] at this
        exact this)
    split_ifs with hgt
    · exact hbase.sublist (List.take_sublist _ _)
    · exact hbase
  intro i j hij hj
  exact (List.pairwise_iff_get.mp hpair) i j hij hj

theorem selectComments_priority_order_witness :
    prioritized ((selectComments cfgPriority2 rnd0
      [msgSuper1, msgA, msgSuper2]).get ⟨0, by decide⟩) = true :=
  selectComments_priority_order cfgPriority2 rnd0 [msgSuper1, msgA, msgSuper2]
    rfl (by decide) (by decide)
    ⟨0, by decide⟩ ⟨1, by decide⟩ (by decide) (by decide)

theorem takeWhile_append_stop {α : Type} (p : α → Bool) (x : α) (l2 : List α) :
    ∀ l1 : List α, (∀ c ∈ l1, p c = true) → p x = false →
      (l1 ++ x :: l2).takeWhile p = l1 := by
  intro l1
  induction l1 with
  | nil =>
    intro h1 hx
    rw [List.nil_append, List.takeWhile_cons, if_neg (by simp [hx])]
  | cons a t ih =>
    intro h1 hx
    have ha : p a = true := h1 a (List.mem_cons_self a t)
    rw [List.cons_append, List.takeWhile_cons, if_pos ha,
      ih (fun c hc => h1 c (List.mem_cons_of_mem a hc)) hx]

theorem dropWhile_append_stop {α : Type} (p : α → Bool) (x : α) (l2 : List α) :
    ∀ l1 : List α, (∀ c ∈ l1, p c = true) → p x = false →
      (l1 ++ x :: l2).dropWhile p = x :: l2 := by
  intro l1
  induction l1 with
  | nil =>
    intro h1 hx
    rw [List.nil_append, List.dropWhile_cons, if_neg (by simp [hx])]
  | cons a t ih =>
    intro h1 hx
    have ha : p a = true := h1 a (List.mem_cons_self a t)
    rw [List.cons_append, List.dropWhile_cons, if_pos ha,
      ih (fun c hc => h1 c (List.mem_cons_of_mem a hc)) hx]

theorem mem_split_first {α : Type} [DecidableEq α] (y : α) :
    ∀ l : List α, y ∈ l →
      ∃ pre post, l = pre ++ y :: post ∧ pre = l.takeWhile (fun c => c != y) ∧
        post = (l.dropWhile (fun c => c != y)).drop 1 ∧ y ∉ pre := by
  intro l
  induction l with
  | nil => intro h; exact absurd h (List.not_mem_nil y)
  | cons a t ih =>
    intro hmem
    by_cases hay : a = y
    · subst hay
      refine ⟨[], t, rfl, ?_, ?_, by simp⟩
      · rw [List.takeWhile_cons]; simp
      · rw [List.dropWhile_cons]; simp
    · have hmt : y ∈ t := by
        rcases List.mem_cons.mp hmem with h | h
        · exact absurd h.symm hay
        · exact h
      obtain ⟨pre, post, he, hpre, hpost, hnot⟩ := ih hmt
      have hbne : (a != y) = true := by simpa using hay
      refine ⟨a :: pre, post, by rw [List.cons_append, ← he], ?_, ?_, ?_⟩
      · rw [List.takeWhile_cons, if_pos hbne, hpre]
      · rw [List.dropWhile_cons, if_pos hbne]
        exact hpost
      · intro h
        rcases List.mem_cons.mp h with h | h
        · exact hay h.symm
        · exact hnot h

theorem validEmotion_data_ne_nil {tag : String} (h : tag ∈ validEmotionsList) :
    tag.data ≠ [] := by
  simp only [validEmotionsList, List.mem_cons, List.not_mem_nil, or_false] at h
  rcases h with h | h | h | h | h | h <;> subst h <;> decide

/-- C5 counterexample: parseEmotion trims whitespace from both ends of the
remainder (Go strings.TrimSpace), not only from the left: a trailing blank
after the tag is removed. -/
theorem parseEmotion_trim_counterexample :
    parseEmotion "[happy] hi " "neutral" ≠ ("hi ", "happy") ∧
    parseEmotion "[happy] hi " "neutral" = ("hi", "happy") := by
  constructor <;> decide

/-- C5 amended: when the content decomposes as a bracketed recognized tag
followed by a remainder, parseEmotion strips the tag and trims whitespace
from both ends of the remainder and returns the lowercase tag; otherwise it
returns the content unchanged with the default emotion (neutral when the
default is empty). -/
theorem parseEmotion_tag_spec (content d : String) :
    (∀ tag pre rest, specTaggedContent content tag pre rest →
      parseEmotion content d = (⟨goTrimChars rest⟩, tag)) ∧
    ((¬ ∃ tag pre rest, specTaggedContent content tag pre rest) →
      parseEmotion content d = (content, if d = "" then "neutral" else d)) := by
  constructor
  · rintro tag pre rest ⟨hmem, hdata, hmap, hnot⟩
    have hdne := validEmotion_data_ne_nil hmem
    have hprene : pre ≠ [] := by
      intro h
      subst h
      simp only [List.map_nil] at hmap
      exact hdne hmap.symm
    have hp : 0 < pre.length := List.length_pos.mpr hprene
    have hlen : 2 < content.length := by
      have hcl : content.length = content.data.length := rfl
      rw [hcl, hdata]
      simp only [List.length_cons, List.length_append]
      omega
    have hhead : content.data.head? = some '[' := by rw [hdata]; rfl
    have hdrop1 : content.data.drop 1 = pre ++ ']' :: rest := by rw [hdata]; rfl
    have hpre_true : ∀ c ∈ pre, (c != ']') = true := by
      intro c hc
      have hcne : c ≠ ']' := fun h => hnot (h ▸ hc)
      simpa using hcne
    have hx : ((']' : Char) != ']') = false := by simp
    have htake : (pre ++ ']' :: rest).takeWhile (fun c => c != ']') = pre :=
      takeWhile_append_stop _ ']' rest pre hpre_true hx
    have hdropw : (pre ++ ']' :: rest).dropWhile (fun c => c != ']') = ']' :: rest :=
      dropWhile_append_stop _ ']' rest pre hpre_true hx
    simp only [parseEmotion]
    rw [if_pos ⟨hlen, hhead⟩, hdrop1,
      if_pos (List.mem_append.mpr (Or.inr (List.mem_cons_self ']' rest))),
      htake, hmap, if_pos hmem, hdropw]
    rfl
  · intro hno
    by_cases h1 : 2 < content.length ∧ content.data.head? = some '['
    · obtain ⟨hlen, hhead⟩ := h1
      have hcd : content.data = '[' :: content.data.drop 1 := by
        cases hc : content.data with
        | nil => rw [hc] at hhead; exact Option.noConfusion hhead
        | cons c0 cs0 =>
          rw [hc] at hhead
          have hc0 : c0 = '[' := Option.some.inj hhead
          rw [hc0]
          rfl
      by_cases h2 : ']' ∈ content.data.drop 1
      · obtain ⟨preW, postW, hsplit, hpreW, hpostW, hnotin⟩ :=
          mem_split_first ']' (content.data.drop 1) h2
        by_cases h3 : (⟨preW.map Char.toLower⟩ : String) ∈ validEmotionsList
        · exfalso
          apply hno
          have hdataC : content.data = '[' :: (preW ++ ']' :: postW) := by
            conv_lhs => rw [hcd]
            rw [hsplit]
          exact ⟨⟨preW.map Char.toLower⟩, preW, postW, h3, hdataC, rfl, hnotin⟩
        · simp only [parseEmotion]
          rw [if_pos ⟨hlen, hhead⟩, if_pos h2, ← hpreW, if_neg h3]
      · simp only [parseEmotion]
        rw [if_pos ⟨hlen, hhead⟩, if_neg h2]
    · simp only [parseEmotion]
      rw [if_neg h1]

theorem parseEmotion_tag_spec_witness :
    parseEmotion "[HAPPY] hi" "x" = (⟨goTrimChars (" hi".data)⟩, "happy") ∧
    parseEmotion "oops" "" = ("oops", if ("" : String) = "" then "neutral" else "") := by
  constructor
  · exact (parseEmotion_tag_spec "[HAPPY] hi" "x").1 "happy" ("HAPPY".data) (" hi".data)
      ⟨by decide, by decide, by decide, by decide⟩
  · refine (parseEmotion_tag_spec "oops" "").2 ?_
    rintro ⟨tag, pre, rest, hmem, hdata, hmap, hnot⟩
    have h0 : ("oops".data).head? = some 'o' := rfl
    rw [hdata] at h0
    have hbad : '[' = 'o' := Option.some.inj h0
    exact absurd hbad (by decide)

end Picoclaw
